import Mathlib

/-!
Shallow embedding of the Autoclean profiling & cleaning engine
(src/autoclean/profiler.py and src/autoclean/cleaner.py).

Modelling conventions:
* pandas cell values are the inductive `Cell`; the missing sentinel
  (NaN / NaT / pd.NA) is `Cell.na`.
* a pandas Series is a `Col`: a dtype tag plus a cell list.  The dtypes we
  model are object/string (collapsed to `.obj` — the engine treats both the
  same), float64 (`.floatT`), nullable boolean (`.booleanT`) and
  datetime64 (`.datetimeT`).  The non-nullable numpy `bool` dtype never
  arises in the pipelines under study and is not modelled.
* floats are modelled as rationals: the engine's arithmetic
  (quartiles, medians, means, the health score) is exact on the
  decimal inputs the claims are about; float representation error and
  infinities are outside the model.
* Python string operations are modelled on `List Char`
  (ASCII lower-casing, whitespace stripping), matching the
  behaviour of `.str.strip()` / `.str.lower()` on the ASCII data involved.
-/

namespace Autoclean

/-- A single pandas cell value.  `na` is the missing sentinel. -/
inductive Cell where
  | na
  | s (v : String)
  | q (v : ℚ)
  | b (v : Bool)
  | ts (v : ℤ)
  deriving DecidableEq, Repr

/-- The pandas dtypes the engine distinguishes. -/
inductive DType where
  | obj
  | floatT
  | booleanT
  | datetimeT
  deriving DecidableEq, Repr

/-- A pandas Series: dtype tag plus cells. -/
structure Col where
  dtype : DType
  cells : List Cell
  deriving DecidableEq, Repr

/-- A pandas DataFrame: ordered, named columns. -/
structure Df where
  cols : List (String × Col)
  deriving DecidableEq, Repr

/-- Row count (pandas keeps all columns the same length; a frame with no
columns is modelled as having no rows). -/
def Df.nRows (df : Df) : ℕ :=
  match df.cols with
  | [] => 0
  | (_, c) :: _ => c.cells.length

def lookupCol : List (String × Col) → String → Option Col
  | [], _ => none
  | (m, c) :: rest, n => if m = n then some c else lookupCol rest n

def Df.getCol (df : Df) (n : String) : Option Col := lookupCol df.cols n

def Df.hasCol (df : Df) (n : String) : Bool := (df.getCol n).isSome

def setColList : List (String × Col) → String → Col → List (String × Col)
  | [], _, _ => []
  | (m, c) :: rest, n, c' =>
    if m = n then (m, c') :: rest else (m, c) :: setColList rest n c'

/-- `df[n] = c` for an existing column `n` (the engine only ever assigns to
columns already present). -/
def Df.setCol (df : Df) (n : String) (c : Col) : Df := ⟨setColList df.cols n c⟩

def Df.colNames (df : Df) : List String := df.cols.map Prod.fst

/-! ### Python string primitives -/

/-- Whitespace characters stripped by Python's `str.strip`. -/
def isSpaceChar (c : Char) : Bool :=
  c = ' ' ∨ c = '\t' ∨ c = '\n' ∨ c = '\r' ∨ c = '\x0b' ∨ c = '\x0c'

/-- ASCII lower-casing of one character (`str.lower` on the ASCII data in
play): `A`–`Z` (codepoints 65–90) shift by 32, everything else is kept. -/
def lowerChar (c : Char) : Char :=
  if 65 ≤ c.toNat ∧ c.toNat ≤ 90 then Char.ofNat (c.toNat + 32) else c

def lowerStr (l : List Char) : List Char := l.map lowerChar

/-- `str.strip()`: drop leading and trailing whitespace. -/
def stripL (l : List Char) : List Char :=
  ((l.dropWhile isSpaceChar).reverse.dropWhile isSpaceChar).reverse

/-- Trim a Lean string the way `.str.strip()` does. -/
def strip (s : String) : String := ⟨stripL s.data⟩

/-- Trim and lower-case, the way `.str.strip().str.lower()` does. -/
def stripLower (s : String) : String := ⟨lowerStr (stripL s.data)⟩

/-! ### profiler.py: missing-token normalization -/

/-- `MISSING_MARKERS` from profiler.py (a set there; only membership is
used). -/
def MISSING_MARKERS : List String := ["", "?", "na", "n/a", "null", "none", "nan"]

/-- One cell of `_normalize_missing_tokens`' per-column transform:
strip, lower-case, then map markers to NA.  `pd.NA` stays NA through
`astype("string")`/`.str` ops; non-string objects inside an object column
(which pandas would stringify) do not occur in the tables of this
development and pass through unchanged. -/
def normCell : Cell → Cell
  | .na => .na
  | .s v =>
    let t := stripLower v
    if t ∈ MISSING_MARKERS then .na else .s t
  | c => c

/-- `_normalize_missing_tokens` on one named column. -/
def normalizeColEntry : String × Col → String × Col
  | (n, c) =>
    match c.dtype with
    | .obj => (n, ⟨.obj, c.cells.map normCell⟩)
    | _ => (n, c)

/-- `_normalize_missing_tokens` (profiler.py): rewrite the object/string
columns; other dtypes untouched.  (The result of the pandas transform has
"string" dtype, which this model also files under `.obj`.) -/
def normalizeMissingTokens (df : Df) : Df :=
  ⟨df.cols.map normalizeColEntry⟩

/-! ### profiler.py: NumericCoercer (`clean_numeric_series`) -/

def isDigitChar (c : Char) : Bool := '0' ≤ c ∧ c ≤ '9'

def digitVal (c : Char) : ℕ := c.toNat - 48

def digitsToNat (l : List Char) : ℕ := l.foldl (fun a c => 10 * a + digitVal c) 0

/-- Parse the exponent tail `[+-]?digits` (nothing may follow). -/
def parseExp (l : List Char) : Option ℤ :=
  let (sgn, l) : ℤ × List Char :=
    match l with
    | '+' :: r => (1, r)
    | '-' :: r => (-1, r)
    | _ => (1, l)
  let ds := l.takeWhile isDigitChar
  let rest := l.dropWhile isDigitChar
  if ds.isEmpty ∨ ¬ rest.isEmpty then none else some (sgn * digitsToNat ds)

/-- Decimal-number parsing as `pd.to_numeric(..., errors="coerce")` does it:
`[+-]? digits [. digits]? [(e|E) [+-]? digits]?` with at least one mantissa
digit; anything else fails (NaN).  (`inf` inputs, which `to_numeric` maps to
a float infinity, are outside the rational model and never occur here.) -/
def parseRat (l : List Char) : Option ℚ :=
  let (sgn, l) : ℚ × List Char :=
    match l with
    | '+' :: r => (1, r)
    | '-' :: r => (-1, r)
    | _ => (1, l)
  let ip := l.takeWhile isDigitChar
  let l := l.dropWhile isDigitChar
  let (fp, l) : List Char × List Char :=
    match l with
    | '.' :: r => (r.takeWhile isDigitChar, r.dropWhile isDigitChar)
    | _ => ([], l)
  if ip.isEmpty ∧ fp.isEmpty then none
  else
    let mant : ℚ := (digitsToNat ip : ℚ) + (digitsToNat fp : ℚ) / (10 : ℚ) ^ fp.length
    match l with
    | [] => some (sgn * mant)
    | c :: r =>
      if c = 'e' ∨ c = 'E' then
        match parseExp r with
        | some e => some (sgn * mant * (10 : ℚ) ^ e)
        | none => none
      else none

/-- Split a char list just after its first `']'` (used to erase one
non-greedy `\[.*?\]` bracket span). -/
def splitRBrack : List Char → Option (List Char)
  | [] => none
  | c :: r => if c = ']' then some r else splitRBrack r

/-- Fuel-indexed worker for `removeBrackets` (the fuel, the input length,
always suffices: each step consumes at least one character; it is only
there to make the recursion structural). -/
def rbAux : ℕ → List Char → List Char
  | _, [] => []
  | 0, l => l
  | fuel + 1, c :: rest =>
    if c = '[' then
      match splitRBrack rest with
      | some r => rbAux fuel r
      | none => c :: rbAux fuel rest
    else c :: rbAux fuel rest

/-- `.str.replace(r"\[.*?\]", "")`: erase every bracketed span up to the
nearest closing bracket; an unclosed `[` is kept. -/
def removeBrackets (l : List Char) : List Char := rbAux l.length l

/-- The string pipeline of `clean_numeric_series` for one cell:
drop `$`/`,`, erase bracket spans, drop the dagger footnote glyphs,
strip, lower, map missing markers to NA, then parse. -/
def coerceNumStr (v : String) : Option ℚ :=
  let l := v.data.filter fun ch => ¬ (ch = '$' ∨ ch = ',')
  let l := removeBrackets l
  let l := l.filter fun ch => ¬ (ch = '†' ∨ ch = '‡')
  let l := lowerStr (stripL l)
  if (⟨l⟩ : String) ∈ MISSING_MARKERS then none else parseRat l

/-- `clean_numeric_series` (profiler.py), returning the resulting float
series as `Option ℚ` values.  Numeric input is returned as-is; datetime and
boolean input produces an all-NaN series; object input goes through
`coerceNumStr` cell by cell. -/
def cleanNumericSeries (c : Col) : List (Option ℚ) :=
  match c.dtype with
  | .floatT => c.cells.map fun cell => match cell with | .q v => some v | _ => none
  | .datetimeT => c.cells.map fun _ => none
  | .booleanT => c.cells.map fun _ => none
  | .obj => c.cells.map fun cell =>
      match cell with
      | .s v => coerceNumStr v
      | _ => none

/-! ### profiler.py: type inference -/

/-- `pd.api.types.is_numeric_dtype` on the modelled dtypes (float and the
nullable boolean extension dtype count as numeric). -/
def isNumericDtype (c : Col) : Bool :=
  match c.dtype with
  | .floatT => true
  | .booleanT => true
  | _ => false

/-- `pd.api.types.is_bool_dtype` on the modelled dtypes. -/
def isBoolDtype (c : Col) : Bool :=
  match c.dtype with
  | .booleanT => true
  | _ => false

def isDatetimeDtype (c : Col) : Bool :=
  match c.dtype with
  | .datetimeT => true
  | _ => false

/-- Number of missing (NA) cells of a column (`series.isna().sum()`). -/
def naCount (c : Col) : ℕ := (c.cells.filter (· = Cell.na)).length

/-- Number of non-missing cells (`series.notna().sum()`). -/
def notNaCount (c : Col) : ℕ := (c.cells.filter (· ≠ Cell.na)).length

/-- Distinct values of a list, first occurrences kept. -/
def distinctList (l : List Cell) : List Cell :=
  l.foldl (fun acc c => if c ∈ acc then acc else acc ++ [c]) []

/-- `series.nunique(dropna=True)`: number of distinct non-missing values. -/
def nunique (c : Col) : ℕ := (distinctList (c.cells.filter (· ≠ Cell.na))).length

/-- How many cells the numeric coercer converts successfully
(`clean_numeric_series(series).notna().sum()`). -/
def convCount (c : Col) : ℕ := ((cleanNumericSeries c).filterMap id).length

/-- `infer_column_type` (profiler.py).  The `notna().mean() > 0.8` test has
the full column length as denominator; `cnt / n > 4/5` is stated
cross-multiplied (for `n = 0` pandas' mean is NaN and the test is false,
which `5 * cnt > 4 * 0 = 0` with `cnt = 0` also gives). -/
def inferColumnType (c : Col) : String :=
  if isDatetimeDtype c then "datetime"
  else if isBoolDtype c then "binary"
  else if c.dtype = DType.floatT then "numeric"
  else if 5 * convCount c > 4 * c.cells.length then "numeric"
  else if c.cells.length = 0 then "categorical"
  else if nunique c = 2 then "binary"
  else if 10 * nunique c > 9 * c.cells.length then "id"
  else "categorical"

/-! ### rounding and quantiles -/

/-- Round to the nearest integer, ties to even (Python's `round`, numpy's
rounding). -/
def rhe (x : ℚ) : ℤ :=
  let f := ⌊x⌋
  let frac := x - f
  if frac < 1/2 then f
  else if 1/2 < frac then f + 1
  else if f % 2 = 0 then f else f + 1

/-- `round(x, 2)`. -/
def round2 (x : ℚ) : ℚ := (rhe (x * 100) : ℚ) / 100

/-- Linear-interpolation quantile of an already sorted nonempty list
(pandas' default `interpolation="linear"`). -/
def quantileSorted (xs : List ℚ) (p : ℚ) : ℚ :=
  match xs with
  | [] => 0
  | _ =>
    let n := xs.length
    let h : ℚ := p * ((n : ℚ) - 1)
    let lo := (⌊h⌋).toNat
    let hi := (⌈h⌉).toNat
    let a := xs.getD lo 0
    let b := xs.getD hi 0
    a + (h - (lo : ℚ)) * (b - a)

/-- `series.quantile(p)` on the non-missing values `xs`. -/
def quantileQ (xs : List ℚ) (p : ℚ) : ℚ :=
  quantileSorted (xs.insertionSort (· ≤ ·)) p

/-- `detect_outliers` (profiler.py) on an already numeric, already
non-missing value list (which is how `profile_dataset` invokes it: on
`clean_numeric_series(col).dropna()`; its own `is_numeric_dtype` guard and
`dropna` are no-ops there).  `pd.isna(iqr)` cannot hold over ℚ. -/
def detectOutliersList (xs : List ℚ) : ℕ :=
  if xs.length < 3 then 0
  else
    let q1 := quantileQ xs (1/4)
    let q3 := quantileQ xs (3/4)
    let iqr := q3 - q1
    if iqr = 0 then 0
    else
      let lower := q1 - 3/2 * iqr
      let upper := q3 + 3/2 * iqr
      (xs.filter fun x => x < lower ∨ upper < x).length

/-! ### profiler.py: `profile_dataset` -/

/-- Outliers contributed by one column to the dataset total: computed only
for columns inferred `numeric`, over the coerced non-missing values, and
only when at least 3 of them exist (mirroring the `len >= 3` branch around
`detect_outliers`). -/
def colOutliers (c : Col) : ℕ :=
  if inferColumnType c = "numeric" then
    let nc := (cleanNumericSeries c).filterMap id
    if 3 ≤ nc.length then detectOutliersList nc else 0
  else 0

/-- Cell of column `c` in row `i` (all columns have the same length in a
well-formed frame). -/
def rowAt (df : Df) (i : ℕ) : List Cell :=
  df.cols.map fun (_, c) => c.cells.getD i Cell.na

def dupAux : List (List Cell) → List (List Cell) → ℕ
  | _, [] => 0
  | seen, r :: rest => (if r ∈ seen then 1 else 0) + dupAux (r :: seen) rest

/-- `df.duplicated().sum()`: rows equal to an earlier row (pandas treats
NA as equal to NA here, as does `Cell.na = Cell.na`). -/
def dupRowCount (df : Df) : ℕ :=
  dupAux [] ((List.range df.nRows).map (rowAt df))

/-- `df.isna().sum().sum()`. -/
def missingCellCount (df : Df) : ℕ := (df.cols.map fun (_, c) => naCount c).sum

/-- Sum of per-column outlier counts accumulated by the profiling loop. -/
def totalOutlierCount (df : Df) : ℕ := (df.cols.map fun (_, c) => colOutliers c).sum

/-- Per-column profile (the display-only `skew`/`entropy` floats, which are
irrational-valued and feed nothing else, are not modelled). -/
structure ColProfile where
  type : String
  missing_percent : ℚ
  cardinality : ℕ
  outliers : ℕ
  deriving DecidableEq, Repr

def colProfile (rows : ℕ) (c : Col) : ColProfile :=
  { type := inferColumnType c
    missing_percent :=
      if rows = 0 then 0
      else round2 (((naCount c : ℚ) / (c.cells.length : ℚ)) * 100)
    cardinality := nunique c
    outliers := colOutliers c }

structure DatasetProfile where
  rows : ℕ
  columns : ℕ
  missing_percent : ℚ
  duplicate_percent : ℚ
  outlier_percent : ℚ
  data_health_score : Option ℚ
  columns_profile : List (String × ColProfile)
  deriving DecidableEq, Repr

/-- `profile_dataset` (profiler.py).  Health score: penalties are computed
from the unrounded ratios; the `np.isnan/np.isinf` fallback branch cannot
trigger over ℚ (total_cells > 0 on that path). -/
def profileDataset (df : Df) : DatasetProfile :=
  let dfn := normalizeMissingTokens df
  let rows := dfn.nRows
  let cols := dfn.cols.length
  let totalCells := rows * cols
  let missingCells := missingCellCount dfn
  let duplicateRows := dupRowCount dfn
  let totalOutliers := totalOutlierCount dfn
  let columnProfiles := dfn.cols.map fun (n, c) => (n, colProfile rows c)
  if rows = 0 ∨ totalCells = 0 then
    { rows := rows, columns := cols
      missing_percent := 0, duplicate_percent := 0, outlier_percent := 0
      data_health_score := none, columns_profile := columnProfiles }
  else
    let missingPenalty : ℚ := ((missingCells : ℚ) / (totalCells : ℚ)) * 40
    let duplicatePenalty : ℚ := ((duplicateRows : ℚ) / (rows : ℚ)) * 20
    let outlierPenalty : ℚ := min (((totalOutliers : ℚ) / (totalCells : ℚ)) * 30) 30
    let totalPenalty := missingPenalty + duplicatePenalty + outlierPenalty
    { rows := rows, columns := cols
      missing_percent := round2 (((missingCells : ℚ) / (totalCells : ℚ)) * 100)
      duplicate_percent := round2 (((duplicateRows : ℚ) / (rows : ℚ)) * 100)
      outlier_percent := round2 (((totalOutliers : ℚ) / (totalCells : ℚ)) * 100)
      data_health_score := some (round2 (max 0 (100 - totalPenalty)))
      columns_profile := columnProfiles }

/-! ### cleaner.py -/

def BOOL_TRUE : List String := ["true", "t", "yes", "y", "1"]

def BOOL_FALSE : List String := ["false", "f", "no", "n", "0"]

/-- Read a float column as `Option ℚ` values. -/
def asNums (c : Col) : List (Option ℚ) :=
  c.cells.map fun cell => match cell with | .q v => some v | _ => none

def mkNumCol (xs : List (Option ℚ)) : Col :=
  ⟨.floatT, xs.map fun o => match o with | some v => Cell.q v | none => Cell.na⟩

def mkBoolCol (xs : List (Option Bool)) : Col :=
  ⟨.booleanT, xs.map fun o => match o with | some b => Cell.b b | none => Cell.na⟩

/-- `_to_numeric` = `pd.to_numeric(series, errors="coerce")`.  Plain decimal
parsing (surrounding whitespace tolerated), no `$`/bracket cleanup;
booleans map to 0/1, datetimes to their integer timestamps, parse failures
and NA to NaN. -/
def toNumericCol (c : Col) : Col :=
  match c.dtype with
  | .floatT => c
  | .booleanT =>
    ⟨.floatT, c.cells.map fun cell =>
      match cell with | .b true => Cell.q 1 | .b false => Cell.q 0 | _ => Cell.na⟩
  | .datetimeT =>
    ⟨.floatT, c.cells.map fun cell =>
      match cell with | .ts v => Cell.q v | _ => Cell.na⟩
  | .obj =>
    ⟨.floatT, c.cells.map fun cell =>
      match cell with
      | .s v => (match parseRat (stripL v.data) with
                 | some q => Cell.q q
                 | none => Cell.na)
      | .q v => Cell.q v
      | .b true => Cell.q 1
      | .b false => Cell.q 0
      | _ => Cell.na⟩

/-- `_parse_bool` on one string cell: strip, lower, then membership in the
fixed token sets.  (The intermediate `replace` of `""`/`"nan"`/`"none"` to
NA is observationally a no-op: none of those is in either token set, and
unmatched cells end as NA anyway.) -/
def parseBoolStr (v : String) : Option Bool :=
  let t := stripLower v
  if t ∈ BOOL_TRUE then some true
  else if t ∈ BOOL_FALSE then some false
  else none

/-- `_parse_bool` (cleaner.py).  On a nullable-boolean column,
`astype("string")` writes `"True"`/`"False"`, which strip+lower turns into
`"true"`/`"false"` and the token sets parse back: the net effect is the
identity.  Float and datetime cells stringify with a decimal point,
exponent or date syntax, never matching a token, hence NA.  (The final
`series.dtype == bool` branch concerns the non-nullable numpy bool dtype,
which is not modelled.) -/
def parseBool (c : Col) : List (Option Bool) :=
  match c.dtype with
  | .booleanT => c.cells.map fun cell => match cell with | .b v => some v | _ => none
  | .obj => c.cells.map fun cell => match cell with | .s v => parseBoolStr v | _ => none
  | .floatT => c.cells.map fun _ => none
  | .datetimeT => c.cells.map fun _ => none

/-- `_try_parse_datetime` (cleaner.py).  `pd.to_datetime(..., errors="coerce")`
is an external parser, supplied here as an oracle mapping the column to its
parsed timestamps (`none` = NaT). -/
def tryParseDatetime (oracle : Col → List (Option ℤ)) (df : Df) (col : String) :
    Df × List String :=
  match df.getCol col with
  | none => (df, [])
  | some c =>
    let beforeNa := naCount c
    let c' : Col := ⟨.datetimeT, (oracle c).map fun o =>
      match o with | some t => Cell.ts t | none => Cell.na⟩
    let afterNa := naCount c'
    (df.setCol col c',
      ["try_parse_datetime: " ++ col ++ " (na " ++ toString beforeNa ++ "->"
        ++ toString afterNa ++ ")"])

/-- `series.median(skipna=True)` over the non-missing values (linear
interpolation of the two middle elements for even length); `none` = NaN
for an empty list. -/
def medianQ (xs : List ℚ) : Option ℚ :=
  match xs with
  | [] => none
  | _ =>
    let s := xs.insertionSort (· ≤ ·)
    let n := xs.length
    if n % 2 = 1 then some (s.getD (n / 2) 0)
    else some ((s.getD (n / 2 - 1) 0 + s.getD (n / 2) 0) / 2)

/-- `series.mean(skipna=True)` over the non-missing values. -/
def meanQ (xs : List ℚ) : Option ℚ :=
  match xs with
  | [] => none
  | _ => some (xs.sum / (xs.length : ℚ))

/-- `series.mode(dropna=True).iloc[0]`: the smallest among the most
frequent values (pandas returns the modes sorted ascending); `none` when
there are no values. -/
def modeList {α : Type} [DecidableEq α] [LinearOrder α] (xs : List α) : Option α :=
  match xs with
  | [] => none
  | _ =>
    let mx := (xs.map fun v => xs.count v).foldl Nat.max 0
    let cands := xs.filter fun v => xs.count v == mx
    match cands with
    | [] => none
    | d :: ds => some (ds.foldl min d)

/-- Tail of `_fill_missing_numeric` after the strategy statistic `valOpt`
has been computed on the already-coerced column `c` of the already-updated
frame `df`: skip silently if the statistic is NaN, otherwise fill and log. -/
def fillNumFinish (df : Df) (col strategy : String) (c : Col) (before : ℕ)
    (valOpt : Option ℚ) : Except String (Df × List String) :=
  match valOpt with
  | none => .ok (df, [])
  | some v =>
    let c' : Col := ⟨.floatT, c.cells.map fun cell =>
      match cell with | Cell.na => Cell.q v | x => x⟩
    let after := naCount c'
    .ok (df.setCol col c',
      ["fill_missing: " ++ col ++ " (" ++ strategy ++ ") (na " ++ toString before
        ++ "->" ++ toString after ++ ")"])

/-- `_fill_missing_numeric` (cleaner.py).  Returns the updated frame and the
log entries it appends; an unknown strategy raises (the `Except.error`). -/
def fillMissingNumeric (df : Df) (col strategy : String) :
    Except String (Df × List String) :=
  match df.getCol col with
  | none => .ok (df, [])
  | some c0 =>
    let c := toNumericCol c0
    let df := df.setCol col c
    let before := naCount c
    if before = 0 then .ok (df, [])
    else
      let vals := (asNums c).filterMap id
      if strategy = "median" then fillNumFinish df col strategy c before (medianQ vals)
      else if strategy = "mean" then fillNumFinish df col strategy c before (meanQ vals)
      else if strategy = "mode" then fillNumFinish df col strategy c before (modeList vals)
      else .error ("Unknown numeric fill strategy: " ++ strategy)

/-- `_fill_missing_bool_mode` (cleaner.py). -/
def fillMissingBoolMode (df : Df) (col : String) : Df × List String :=
  match df.getCol col with
  | none => (df, [])
  | some c0 =>
    let parsed := parseBool c0
    let c := mkBoolCol parsed
    let df := df.setCol col c
    let before := naCount c
    if before = 0 then (df, [])
    else
      let fillVal := (modeList (parsed.filterMap id)).getD false
      let c' : Col := ⟨.booleanT, c.cells.map fun cell =>
        match cell with | Cell.na => Cell.b fillVal | x => x⟩
      let after := naCount c'
      (df.setCol col c',
        ["fill_missing: " ++ col ++ " (mode=" ++ (if fillVal then "True" else "False")
          ++ ") (na " ++ toString before ++ "->" ++ toString after ++ ")"])

/-- `_fill_missing_categorical_unknown` (cleaner.py).  `fillna("Unknown")`
leaves an object column object and upcasts a datetime column (NaT becomes
the string, the timestamps stay as objects). -/
def fillMissingCategoricalUnknown (df : Df) (col : String) : Df × List String :=
  match df.getCol col with
  | none => (df, [])
  | some c =>
    if isNumericDtype c then (df, [])
    else
      let before := naCount c
      if before = 0 then (df, [])
      else
        let c' : Col := ⟨.obj, c.cells.map fun cell =>
          match cell with | Cell.na => Cell.s "Unknown" | x => x⟩
        let after := naCount c'
        (df.setCol col c',
          ["fill_missing: " ++ col ++ " (categorical=\x27Unknown\x27) (na "
            ++ toString before ++ "->" ++ toString after ++ ")"])

/-- `_cap_outliers_iqr` (cleaner.py), `k = 1.5`. -/
def capOutliersIqr (df : Df) (col : String) : Df × List String :=
  match df.getCol col with
  | none => (df, [])
  | some c =>
    if ¬ isNumericDtype c then (df, [])
    else if isBoolDtype c then (df, [])
    else
      let s := (asNums c).filterMap id
      if s.isEmpty then (df, [])
      else
        let q1 := quantileQ s (1/4)
        let q3 := quantileQ s (3/4)
        let iqr := q3 - q1
        if iqr = 0 then (df, [])
        else
          let lo := q1 - 3/2 * iqr
          let hi := q3 + 3/2 * iqr
          let c' : Col := ⟨c.dtype, c.cells.map fun cell =>
            match cell with | Cell.q v => Cell.q (max lo (min v hi)) | x => x⟩
          let changed := (List.zip c.cells c'.cells).countP fun pr =>
            pr.1 != Cell.na && pr.1 != pr.2
          (df.setCol col c',
            if changed = 0 then []
            else ["cap_outliers: " ++ col ++ " (changed " ++ toString changed ++ ")"])

def PRICE_COL : String := "price_per_unit"

def QTY_COL : String := "quantity"

def TOTAL_COL : String := "total_spent"

/-- The `for c in (...): if c in df.columns: df[c] = _to_numeric(df[c])`
loops of cleaner.py. -/
def coerceIfPresent (df : Df) (names : List String) : Df :=
  names.foldl
    (fun d n =>
      match d.getCol n with
      | some c => d.setCol n (toNumericCol c)
      | none => d)
    df

/-- Pass 1: `total ← round(price * quantity, 2)` where price and quantity
are known and total missing. -/
def reconPass1 (p q t : List (Option ℚ)) : List (Option ℚ) :=
  List.zipWith3
    (fun pi qi ti =>
      match pi, qi, ti with
      | some a, some b, none => some (round2 (a * b))
      | _, _, _ => ti) p q t

def reconCount1 (p q t : List (Option ℚ)) : ℕ :=
  (List.zipWith3
    (fun pi qi ti =>
      match pi, qi, ti with
      | some _, some _, none => true
      | _, _, _ => false) p q t).count true

/-- Pass 2: `price ← round(total / quantity, 2)` where total and quantity
are known, price missing and quantity nonzero. -/
def reconPass2 (t q p : List (Option ℚ)) : List (Option ℚ) :=
  List.zipWith3
    (fun ti qi pi =>
      match ti, qi, pi with
      | some a, some b, none => if b = 0 then pi else some (round2 (a / b))
      | _, _, _ => pi) t q p

def reconCount2 (t q p : List (Option ℚ)) : ℕ :=
  (List.zipWith3
    (fun ti qi pi =>
      match ti, qi, pi with
      | some _, some b, none => b != 0
      | _, _, _ => false) t q p).count true

/-- Pass 3: `quantity ← round(total / price, 2)` where total and price are
known, quantity missing and price nonzero. -/
def reconPass3 (t p q : List (Option ℚ)) : List (Option ℚ) :=
  List.zipWith3
    (fun ti pi qi =>
      match ti, pi, qi with
      | some a, some b, none => if b = 0 then qi else some (round2 (a / b))
      | _, _, _ => qi) t p q

def reconCount3 (t p q : List (Option ℚ)) : ℕ :=
  (List.zipWith3
    (fun ti pi qi =>
      match ti, pi, qi with
      | some _, some b, none => b != 0
      | _, _, _ => false) t p q).count true

/-- `_reconcile_price_qty_total` (cleaner.py).  Passes are applied
sequentially to the mutating frame; a pass's mask can only involve rows no
earlier pass touched (pass 1 needs total missing, later passes need the
never-rewritten original quantity present resp. missing), so this agrees
with the source's once-captured series views either way. -/
def reconcilePriceQtyTotal (df : Df) : Df × List String × ℕ :=
  let df := coerceIfPresent df [PRICE_COL, QTY_COL, TOTAL_COL]
  if df.hasCol PRICE_COL && df.hasCol QTY_COL && df.hasCol TOTAL_COL then
    let p := asNums ((df.getCol PRICE_COL).getD ⟨.floatT, []⟩)
    let q := asNums ((df.getCol QTY_COL).getD ⟨.floatT, []⟩)
    let t := asNums ((df.getCol TOTAL_COL).getD ⟨.floatT, []⟩)
    let t1 := reconPass1 p q t
    let f1 := reconCount1 p q t
    let p1 := reconPass2 t1 q p
    let f2 := reconCount2 t1 q p
    let q1 := reconPass3 t1 p1 q
    let f3 := reconCount3 t1 p1 q
    let filled := f1 + f2 + f3
    let df := ((df.setCol TOTAL_COL (mkNumCol t1)).setCol PRICE_COL (mkNumCol p1)).setCol
      QTY_COL (mkNumCol q1)
    (df,
      (if 0 < filled then
        ["reconcile: filled " ++ toString filled ++ " values across price/qty/total"]
      else []),
      filled)
  else (df, [], 0)

/-- The exact-token missing markers of the cleaner's own normalization
stage (clean_dataset, first loop) — unlike the profiler's, matching is
case-sensitive and happens after stripping only. -/
def CLEAN_MISSING_TOKENS : List String := ["", "NA", "N/A", "null", "None", "nan", "?"]

/-- One cell of the cleaner's normalization stage: strip, then replace an
exact token match with NA. -/
def cleanNormCell : Cell → Cell
  | .na => .na
  | .s v =>
    let t := strip v
    if t ∈ CLEAN_MISSING_TOKENS then .na else .s t
  | c => c

/-- The cleaner's normalization of one named column. -/
def cleanerNormColEntry : String × Col → String × Col
  | (n, c) =>
    match c.dtype with
    | .obj => (n, ⟨.obj, c.cells.map cleanNormCell⟩)
    | _ => (n, c)

/-- The first loop of `clean_dataset`: strip + exact-token missing markers
on the object/string columns. -/
def cleanerNormalize (df : Df) : Df :=
  ⟨df.cols.map cleanerNormColEntry⟩

def NORM_NOTE : String :=
  "normalize_strings: stripped whitespace + standardized missing markers"

/-- The numeric-fill loop of `clean_dataset` (median strategy, boolean
dtypes excluded), iterating over the column-name snapshot. -/
def numFillLoop : List String → Df → Except String (Df × List String)
  | [], df => .ok (df, [])
  | n :: rest, df =>
    let doFill : Bool :=
      match df.getCol n with
      | some c => isNumericDtype c && ! isBoolDtype c
      | none => false
    if doFill then
      match fillMissingNumeric df n "median" with
      | .error e => .error e
      | .ok (df', acts) =>
        match numFillLoop rest df' with
        | .error e => .error e
        | .ok (df'', acts') => .ok (df'', acts ++ acts')
    else numFillLoop rest df

/-- The boolean-fill loop of `clean_dataset`. -/
def boolFillLoop : List String → Df → Df × List String
  | [], df => (df, [])
  | n :: rest, df =>
    let doFill : Bool :=
      match df.getCol n with
      | some c => isBoolDtype c
      | none => false
    if doFill then
      let (df', acts) := fillMissingBoolMode df n
      let (df'', acts') := boolFillLoop rest df'
      (df'', acts ++ acts')
    else boolFillLoop rest df

/-- The categorical-fill loop of `clean_dataset` (the helper itself skips
numeric columns). -/
def catFillLoop : List String → Df → Df × List String
  | [], df => (df, [])
  | n :: rest, df =>
    let (df', acts) := fillMissingCategoricalUnknown df n
    let (df'', acts') := catFillLoop rest df'
    (df'', acts ++ acts')

/-- The outlier-capping loop of `clean_dataset`. -/
def capLoop : List String → Df → Df × List String
  | [], df => (df, [])
  | n :: rest, df =>
    let doCap : Bool :=
      match df.getCol n with
      | some c => isNumericDtype c
      | none => false
    if doCap then
      let (df', acts) := capOutliersIqr df n
      let (df'', acts') := capLoop rest df'
      (df'', acts ++ acts')
    else capLoop rest df

/-- Stage 2b of `clean_dataset`: parse the discount-flag column when
present (the log note is appended before the assignment, as in the
source). -/
def parseBoolStage (df : Df) : Df × List String :=
  match df.getCol "discount_applied" with
  | some c =>
    (df.setCol "discount_applied" (mkBoolCol (parseBool c)),
      ["try_parse_bool: discount_applied"])
  | none => (df, [])

/-- `clean_dataset` (cleaner.py): the fixed pipeline, returning the cleaned
frame and the ordered action log.  `oracle` stands in for the external
`pd.to_datetime` parser of stage 2. -/
def cleanDataset (oracle : Col → List (Option ℤ)) (df : Df) :
    Except String (Df × List String) :=
  let s1 := cleanerNormalize df
  let s2 := tryParseDatetime oracle s1 "transaction_date"
  let s3 := parseBoolStage s2.1
  let s3c := coerceIfPresent s3.1 [PRICE_COL, QTY_COL, TOTAL_COL]
  let s4 := reconcilePriceQtyTotal s3c
  match numFillLoop s4.1.colNames s4.1 with
  | .error e => .error e
  | .ok s5 =>
    let s6 := boolFillLoop s5.1.colNames s5.1
    let s7 := catFillLoop s6.1.colNames s6.1
    let s8 := capLoop s7.1.colNames s7.1
    .ok (s8.1, [NORM_NOTE] ++ s2.2 ++ s3.2 ++ s4.2.1 ++ s5.2 ++ s6.2 ++ s7.2 ++ s8.2)

/-- The all-NaT datetime oracle: `pd.to_datetime(..., errors="coerce")` on
input it cannot parse.  Concrete tables below either lack the
`transaction_date` column (making the oracle irrelevant) or hold
unparseable text in it. -/
def oracleNone : Col → List (Option ℤ) := fun c => c.cells.map fun _ => none

/-! ### Quantities the claims are phrased in -/

/-- The unrounded missing percent the profiler's health penalty is computed
from: `missing_cells / total_cells * 100` over the normalized frame. -/
def missingPercentRaw (df : Df) : ℚ :=
  let dfn := normalizeMissingTokens df
  (missingCellCount dfn : ℚ) / ((dfn.nRows * dfn.cols.length : ℕ) : ℚ) * 100

/-- The unrounded duplicate percent: `duplicate_rows / rows * 100` over the
normalized frame. -/
def duplicatePercentRaw (df : Df) : ℚ :=
  let dfn := normalizeMissingTokens df
  (dupRowCount dfn : ℚ) / (dfn.nRows : ℚ) * 100

/-- The unrounded outlier percent: `total_outliers / total_cells * 100`
over the normalized frame. -/
def outlierPercentRaw (df : Df) : ℚ :=
  let dfn := normalizeMissingTokens df
  (totalOutlierCount dfn : ℚ) / ((dfn.nRows * dfn.cols.length : ℕ) : ℚ) * 100

/-- The numeric-classification test as the claim states it: the fraction of
the column's NON-MISSING cells that the coercer converts exceeds 0.8
(`conv / notNa > 4/5`, cross-multiplied).  The source instead divides by
the full column length; the two are compared below. -/
def claimedNumericRule (c : Col) : Prop :=
  5 * convCount c > 4 * notNaCount c

/-- The action log obtained by running `clean_dataset` (with the all-NaT
datetime oracle) on its own output — the log the idempotence claim says is
free of fill/cap/reconcile entries. -/
def secondRunLog (df : Df) : List String :=
  match cleanDataset oracleNone df with
  | .ok p =>
    match cleanDataset oracleNone p.1 with
    | .ok p2 => p2.2
    | .error _ => []
  | .error _ => []

attribute [local semireducible] Rat.add Rat.mul Rat.inv Rat.sub

/-! ### Lemmas: stripping and lower-casing -/

lemma head?_dropWhile_fails (p : Char → Bool) (l : List Char) :
    ∀ c ∈ (l.dropWhile p).head?, p c = false := by
  intro c hc
  have h := List.head?_dropWhile_not p l
  cases hh : (l.dropWhile p).head? with
  | none => rw [hh] at hc; simp at hc
  | some d =>
    rw [hh] at hc h
    simp only [Option.mem_def, Option.some.injEq] at hc
    subst hc
    simpa using h

lemma dropWhile_eq_self_of_head (p : Char → Bool) (l : List Char)
    (h : ∀ c ∈ l.head?, p c = false) : l.dropWhile p = l := by
  cases l with
  | nil => rfl
  | cons a as =>
    have ha := h a (by simp)
    simp [List.dropWhile_cons, ha]

lemma getLast?_dropWhile (p : Char → Bool) (l : List Char)
    (hne : l.dropWhile p ≠ []) : (l.dropWhile p).getLast? = l.getLast? := by
  obtain ⟨u, hu⟩ := List.dropWhile_suffix (l := l) p
  conv_rhs => rw [← hu]
  exact (List.getLast?_append_of_ne_nil u hne).symm

lemma stripL_head_fails (l : List Char) :
    ∀ c ∈ (stripL l).head?, isSpaceChar c = false := by
  intro c hc
  unfold stripL at hc
  rw [List.head?_reverse] at hc
  by_cases hB : (l.dropWhile isSpaceChar).reverse.dropWhile isSpaceChar = []
  · rw [hB] at hc; simp at hc
  · rw [getLast?_dropWhile _ _ hB, List.getLast?_reverse] at hc
    exact head?_dropWhile_fails _ _ c hc

lemma stripL_reverse (l : List Char) :
    (stripL l).reverse = (l.dropWhile isSpaceChar).reverse.dropWhile isSpaceChar := by
  unfold stripL
  rw [List.reverse_reverse]

lemma stripL_revHead_fails (l : List Char) :
    ∀ c ∈ (stripL l).reverse.head?, isSpaceChar c = false := by
  rw [stripL_reverse]
  exact head?_dropWhile_fails _ _

lemma stripL_eq_self (l : List Char)
    (h1 : ∀ c ∈ l.head?, isSpaceChar c = false)
    (h2 : ∀ c ∈ l.reverse.head?, isSpaceChar c = false) : stripL l = l := by
  unfold stripL
  rw [dropWhile_eq_self_of_head _ _ h1, dropWhile_eq_self_of_head _ _ h2,
    List.reverse_reverse]

lemma stripL_idem (l : List Char) : stripL (stripL l) = stripL l :=
  stripL_eq_self _ (stripL_head_fails l) (stripL_revHead_fails l)

lemma char_toNat_ofNat {m : ℕ} (h : m < 55296) : (Char.ofNat m).toNat = m := by
  have hv : m.isValidChar := Or.inl h
  unfold Char.ofNat
  rw [dif_pos hv]
  rfl

lemma lowerChar_of_upper {c : Char} (h : 65 ≤ c.toNat ∧ c.toNat ≤ 90) :
    lowerChar c = Char.ofNat (c.toNat + 32) := by
  rw [lowerChar, if_pos h]

lemma lowerChar_of_not_upper {c : Char} (h : ¬ (65 ≤ c.toNat ∧ c.toNat ≤ 90)) :
    lowerChar c = c := by
  rw [lowerChar, if_neg h]

lemma lowerChar_idem (c : Char) : lowerChar (lowerChar c) = lowerChar c := by
  by_cases h : 65 ≤ c.toNat ∧ c.toNat ≤ 90
  · have ht : (Char.ofNat (c.toNat + 32)).toNat = c.toNat + 32 :=
      char_toNat_ofNat (by omega)
    rw [lowerChar_of_upper h]
    apply lowerChar_of_not_upper
    rw [ht]
    omega
  · rw [lowerChar_of_not_upper h, lowerChar_of_not_upper h]

lemma isSpaceChar_eq_false_of_ge {c : Char} (h1 : 33 ≤ c.toNat) :
    isSpaceChar c = false := by
  have h' : ∀ d : Char, d.toNat < 33 → ¬ (c = d) := fun d hd he =>
    absurd h1 (by rw [he]; omega)
  unfold isSpaceChar
  apply decide_eq_false
  rintro (h | h | h | h | h | h) <;> exact h' _ (by decide) h

lemma isSpaceChar_lowerChar (c : Char) : isSpaceChar (lowerChar c) = isSpaceChar c := by
  by_cases h : 65 ≤ c.toNat ∧ c.toNat ≤ 90
  · have ht : (Char.ofNat (c.toNat + 32)).toNat = c.toNat + 32 :=
      char_toNat_ofNat (by omega)
    rw [lowerChar_of_upper h]
    rw [isSpaceChar_eq_false_of_ge (by rw [ht]; omega),
      isSpaceChar_eq_false_of_ge (by omega)]
  · rw [lowerChar_of_not_upper h]

lemma lowerStr_idem (l : List Char) : lowerStr (lowerStr l) = lowerStr l := by
  induction l with
  | nil => rfl
  | cons a as ih => simp only [lowerStr, List.map_cons] at *; rw [lowerChar_idem, ih]

lemma stripL_lowerStr_stripL (x : List Char) :
    stripL (lowerStr (stripL x)) = lowerStr (stripL x) := by
  apply stripL_eq_self
  · intro c hc
    unfold lowerStr at hc
    rw [List.head?_map] at hc
    cases hy : (stripL x).head? with
    | none => rw [hy] at hc; simp at hc
    | some d =>
      rw [hy] at hc
      have hcd : c = lowerChar d := by
        rw [Option.mem_def] at hc
        simpa using hc.symm
      rw [hcd, isSpaceChar_lowerChar]
      exact stripL_head_fails x d (by rw [hy]; rfl)
  · intro c hc
    unfold lowerStr at hc
    rw [← List.map_reverse, List.head?_map] at hc
    cases hy : (stripL x).reverse.head? with
    | none => rw [hy] at hc; simp at hc
    | some d =>
      rw [hy] at hc
      have hcd : c = lowerChar d := by
        rw [Option.mem_def] at hc
        simpa using hc.symm
      rw [hcd, isSpaceChar_lowerChar]
      exact stripL_revHead_fails x d (by rw [hy]; rfl)

lemma stripLower_idem (v : String) : stripLower (stripLower v) = stripLower v := by
  show (⟨lowerStr (stripL (lowerStr (stripL v.data)))⟩ : String) = ⟨lowerStr (stripL v.data)⟩
  rw [stripL_lowerStr_stripL, lowerStr_idem]

lemma strip_idem (v : String) : strip (strip v) = strip v := by
  show (⟨stripL (stripL v.data)⟩ : String) = ⟨stripL v.data⟩
  rw [stripL_idem]

/-! ### Lemmas: idempotence of the two normalizers -/

lemma normCell_idem (c : Cell) : normCell (normCell c) = normCell c := by
  cases c with
  | na => rfl
  | q v => rfl
  | b v => rfl
  | ts v => rfl
  | s v =>
    by_cases h : stripLower v ∈ MISSING_MARKERS
    · simp [normCell, h]
    · have h2 : ¬ stripLower (stripLower v) ∈ MISSING_MARKERS := by
        rw [stripLower_idem]; exact h
      simp [normCell, h, h2, stripLower_idem]

lemma cleanNormCell_idem (c : Cell) : cleanNormCell (cleanNormCell c) = cleanNormCell c := by
  cases c with
  | na => rfl
  | q v => rfl
  | b v => rfl
  | ts v => rfl
  | s v =>
    by_cases h : strip v ∈ CLEAN_MISSING_TOKENS
    · simp [cleanNormCell, h]
    · have h2 : ¬ strip (strip v) ∈ CLEAN_MISSING_TOKENS := by
        rw [strip_idem]; exact h
      simp [cleanNormCell, h, h2, strip_idem]

lemma map_self_idem {α : Type} (f : α → α) (h : ∀ x, f (f x) = f x) (l : List α) :
    (l.map f).map f = l.map f := by
  induction l with
  | nil => rfl
  | cons a as ih => simp only [List.map_cons]; rw [h a, ih]

lemma normalizeColEntry_idem (x : String × Col) :
    normalizeColEntry (normalizeColEntry x) = normalizeColEntry x := by
  obtain ⟨n, d, cells⟩ := x
  cases d <;> simp [normalizeColEntry, map_self_idem normCell normCell_idem]

lemma cleanerNormColEntry_idem (x : String × Col) :
    cleanerNormColEntry (cleanerNormColEntry x) = cleanerNormColEntry x := by
  obtain ⟨n, d, cells⟩ := x
  cases d <;> simp [cleanerNormColEntry, map_self_idem cleanNormCell cleanNormCell_idem]

/-! ### Lemmas: rounding bounds -/

lemma rhe_ge_floor (x : ℚ) : ⌊x⌋ ≤ rhe x := by
  unfold rhe
  dsimp only
  split_ifs <;> omega

lemma rhe_le_of_le {x : ℚ} {n : ℤ} (h : x ≤ (n : ℚ)) : rhe x ≤ n := by
  have hfl : ⌊x⌋ ≤ n := by
    have := Int.floor_le_floor h
    simpa using this
  have hstrict : ¬ (x - ⌊x⌋ < 1/2) → ⌊x⌋ + 1 ≤ n := by
    intro h1
    push_neg at h1
    have hlt : (⌊x⌋ : ℚ) < x := by linarith
    have : (⌊x⌋ : ℚ) < (n : ℚ) := lt_of_lt_of_le hlt h
    have : ⌊x⌋ < n := by exact_mod_cast this
    omega
  unfold rhe
  dsimp only
  split_ifs with h1 h2 h3
  · exact hfl
  · exact hstrict h1
  · exact hfl
  · exact hstrict h1

lemma rhe_nonneg {x : ℚ} (h : 0 ≤ x) : 0 ≤ rhe x := by
  have h1 : (0 : ℤ) ≤ ⌊x⌋ := Int.floor_nonneg.mpr h
  have h2 := rhe_ge_floor x
  omega

lemma round2_nonneg {x : ℚ} (h : 0 ≤ x) : 0 ≤ round2 x := by
  unfold round2
  have h1 : (0 : ℤ) ≤ rhe (x * 100) := rhe_nonneg (by positivity)
  have h2 : (0 : ℚ) ≤ (rhe (x * 100) : ℚ) := by exact_mod_cast h1
  positivity

lemma round2_le_100 {x : ℚ} (h : x ≤ 100) : round2 x ≤ 100 := by
  unfold round2
  have h1 : rhe (x * 100) ≤ (10000 : ℤ) := rhe_le_of_le (by push_cast; linarith)
  rw [div_le_iff₀ (by norm_num : (0:ℚ) < 100)]
  calc ((rhe (x * 100) : ℤ) : ℚ) ≤ ((10000 : ℤ) : ℚ) := by exact_mod_cast h1
    _ = 100 * 100 := by norm_num

/-! ### Lemmas: normalization preserves the frame's shape -/

lemma normalizeColEntry_len (x : String × Col) :
    (normalizeColEntry x).2.cells.length = x.2.cells.length := by
  obtain ⟨n, d, cells⟩ := x
  cases d <;> simp [normalizeColEntry]

lemma normalize_nRows (df : Df) : (normalizeMissingTokens df).nRows = df.nRows := by
  obtain ⟨cols⟩ := df
  cases cols with
  | nil => rfl
  | cons a rest => exact normalizeColEntry_len a

lemma normalize_ncols (df : Df) :
    (normalizeMissingTokens df).cols.length = df.cols.length := by
  show (df.cols.map normalizeColEntry).length = df.cols.length
  rw [List.length_map]

lemma missingPercentRaw_nonneg (df : Df) : 0 ≤ missingPercentRaw df := by
  unfold missingPercentRaw
  positivity

lemma duplicatePercentRaw_nonneg (df : Df) : 0 ≤ duplicatePercentRaw df := by
  unfold duplicatePercentRaw
  positivity

lemma outlierPercentRaw_nonneg (df : Df) : 0 ≤ outlierPercentRaw df := by
  unfold outlierPercentRaw
  positivity

/-- The health score of a non-degenerate table, written with the claim's
weights `0.40 / 0.20 / 0.30` applied to the raw percents. -/
lemma profile_health_formula (df : Df) (h1 : df.nRows ≠ 0) (h2 : df.cols.length ≠ 0) :
    (profileDataset df).data_health_score =
      some (round2 (max 0 (100 - (missingPercentRaw df * (40/100) +
        duplicatePercentRaw df * (20/100) +
        min (outlierPercentRaw df * (30/100)) 30)))) := by
  have hr := normalize_nRows df
  have hc := normalize_ncols df
  have hcond : ¬ ((normalizeMissingTokens df).nRows = 0 ∨
      (normalizeMissingTokens df).nRows * (normalizeMissingTokens df).cols.length = 0) := by
    push_neg
    refine ⟨by rw [hr]; exact h1, ?_⟩
    rw [hr, hc]
    exact Nat.mul_ne_zero h1 h2
  simp only [profileDataset]
  rw [if_neg hcond]

  have e1 : missingPercentRaw df * (40/100) =
      (missingCellCount (normalizeMissingTokens df) : ℚ) /
        (((normalizeMissingTokens df).nRows * (normalizeMissingTokens df).cols.length : ℕ) : ℚ)
        * 40 := by
    unfold missingPercentRaw
    ring
  have e2 : duplicatePercentRaw df * (20/100) =
      (dupRowCount (normalizeMissingTokens df) : ℚ) /
        (((normalizeMissingTokens df).nRows : ℕ) : ℚ) * 20 := by
    unfold duplicatePercentRaw
    ring
  have e3 : outlierPercentRaw df * (30/100) =
      (totalOutlierCount (normalizeMissingTokens df) : ℚ) /
        (((normalizeMissingTokens df).nRows * (normalizeMissingTokens df).cols.length : ℕ) : ℚ)
        * 30 := by
    unfold outlierPercentRaw
    ring
  rw [e1, e2, e3]

/-- **C1** — For a table with at least one row and one column,
`profile_dataset`'s health score is `100 − (missing_percent·0.40 +
duplicate_percent·0.20 + min(outlier_percent·0.30, 30))` (computed from the
unrounded percents), clamped below at 0, rounded to 2 decimals, and lies in
[0, 100]; for a table with zero rows or zero columns the health score is
undefined (`none`) and the missing, duplicate and outlier percents are all
0.0. -/
theorem claim1_health_score (df : Df) :
    ((df.nRows = 0 ∨ df.cols.length = 0) →
      (profileDataset df).data_health_score = none ∧
      (profileDataset df).missing_percent = 0 ∧
      (profileDataset df).duplicate_percent = 0 ∧
      (profileDataset df).outlier_percent = 0) ∧
    (df.nRows ≠ 0 → df.cols.length ≠ 0 →
      ∃ h, (profileDataset df).data_health_score = some h ∧
        h = round2 (max 0 (100 - (missingPercentRaw df * (40/100) +
          duplicatePercentRaw df * (20/100) +
          min (outlierPercentRaw df * (30/100)) 30))) ∧
        0 ≤ h ∧ h ≤ 100) := by
  have hr := normalize_nRows df
  have hc := normalize_ncols df
  constructor
  · intro h0
    have hcond : (normalizeMissingTokens df).nRows = 0 ∨
        (normalizeMissingTokens df).nRows * (normalizeMissingTokens df).cols.length = 0 := by
      rcases h0 with h | h
      · left; rw [hr]; exact h
      · right; rw [hc, h, Nat.mul_zero]
    simp only [profileDataset]
    rw [if_pos hcond]
    exact ⟨rfl, rfl, rfl, rfl⟩
  · intro h1 h2
    refine ⟨_, profile_health_formula df h1 h2, rfl, ?_, ?_⟩
    · exact round2_nonneg (le_max_left _ _)
    · apply round2_le_100
      apply max_le (by norm_num)
      have hm := missingPercentRaw_nonneg df
      have hd := duplicatePercentRaw_nonneg df
      have ho := outlierPercentRaw_nonneg df
      have hmin : (0:ℚ) ≤ min (outlierPercentRaw df * (30/100)) 30 :=
        le_min (by positivity) (by norm_num)
      linarith

/-- Witness for C1: a 2-row, 1-column table (one cell missing) has health
score 80 within bounds, and the empty table has an undefined health score
with zero percents. -/
theorem claim1_health_score_witness :
    ((profileDataset (⟨[]⟩ : Df)).data_health_score = none ∧
      (profileDataset (⟨[]⟩ : Df)).missing_percent = 0 ∧
      (profileDataset (⟨[]⟩ : Df)).duplicate_percent = 0 ∧
      (profileDataset (⟨[]⟩ : Df)).outlier_percent = 0) ∧
    (∃ h, (profileDataset (⟨[("a", ⟨.obj, [.s "x", .na]⟩)]⟩ : Df)).data_health_score
        = some h ∧
      h = round2 (max 0 (100 -
        (missingPercentRaw (⟨[("a", ⟨.obj, [.s "x", .na]⟩)]⟩ : Df) * (40/100) +
          duplicatePercentRaw (⟨[("a", ⟨.obj, [.s "x", .na]⟩)]⟩ : Df) * (20/100) +
          min (outlierPercentRaw (⟨[("a", ⟨.obj, [.s "x", .na]⟩)]⟩ : Df) * (30/100)) 30))) ∧
      0 ≤ h ∧ h ≤ 100) :=
  ⟨(claim1_health_score ⟨[]⟩).1 (Or.inl rfl),
   (claim1_health_score ⟨[("a", ⟨.obj, [.s "x", .na]⟩)]⟩).2 (by decide) (by decide)⟩

/-- **C9** — Missing-token normalization is idempotent: on every table,
applying the profiler's `_normalize_missing_tokens` twice equals applying
it once, and likewise for the cleaner's own normalization stage. -/
theorem claim9_normalization_idempotent (df : Df) :
    normalizeMissingTokens (normalizeMissingTokens df) = normalizeMissingTokens df ∧
    cleanerNormalize (cleanerNormalize df) = cleanerNormalize df := by
  constructor
  · show (⟨(df.cols.map normalizeColEntry).map normalizeColEntry⟩ : Df) =
      ⟨df.cols.map normalizeColEntry⟩
    rw [map_self_idem _ normalizeColEntry_idem]
  · show (⟨(df.cols.map cleanerNormColEntry).map cleanerNormColEntry⟩ : Df) =
      ⟨df.cols.map cleanerNormColEntry⟩
    rw [map_self_idem _ cleanerNormColEntry_idem]

/-- Witness for C9 on a concrete table with mixed-case and marker cells. -/
theorem claim9_normalization_idempotent_witness :
    normalizeMissingTokens (normalizeMissingTokens
        ⟨[("c", ⟨DType.obj, [.s " A ", .s "na", .na]⟩)]⟩) =
      normalizeMissingTokens ⟨[("c", ⟨DType.obj, [.s " A ", .s "na", .na]⟩)]⟩ ∧
    cleanerNormalize (cleanerNormalize
        ⟨[("c", ⟨DType.obj, [.s " A ", .s "na", .na]⟩)]⟩) =
      cleanerNormalize ⟨[("c", ⟨DType.obj, [.s " A ", .s "na", .na]⟩)]⟩ :=
  claim9_normalization_idempotent _

/-! ### C2: the numeric-classification threshold -/

/-- **C2, counterexample** — an object column `["1","2","3","4", NA]`: all 4
non-missing cells coerce (fraction 1 > 0.8 over the non-missing count), yet
the code divides by the full length 5 (fraction 0.8, not > 0.8) and
classifies `categorical`; the claim's rule and the code disagree here. -/
theorem claim2_counterexample :
    ¬ (inferColumnType ⟨DType.obj, [.s "1", .s "2", .s "3", .s "4", .na]⟩ = "numeric" ↔
       claimedNumericRule ⟨DType.obj, [.s "1", .s "2", .s "3", .s "4", .na]⟩) := by
  unfold claimedNumericRule
  decide

/-- **C2, amended** — for a column not already typed datetime, boolean or
numeric, the inferencer classifies it numeric exactly when the fraction of
ALL its cells (full column length as denominator) that the numeric coercer
successfully converts exceeds 0.8. -/
theorem claim2_amended (c : Col) (hd : c.dtype = DType.obj) :
    inferColumnType c = "numeric" ↔ 5 * convCount c > 4 * c.cells.length := by
  obtain ⟨d, cells⟩ := c
  obtain rfl : d = DType.obj := hd
  simp only [inferColumnType, isDatetimeDtype, isBoolDtype]
  constructor
  · intro h
    by_contra hc
    rw [if_neg hc] at h
    split_ifs at h <;> simp_all
  · intro h
    rw [if_pos h]
    simp

/-- Witness for C2 (amended): an all-coercible object column is classified
numeric, and `5·5 > 4·5`. -/
theorem claim2_amended_witness :
    inferColumnType ⟨DType.obj, [.s "1", .s "2", .s "3", .s "4", .s "5"]⟩ = "numeric" :=
  (claim2_amended _ rfl).mpr (by decide)

/-! ### C3: binary precedence -/

/-- **C3, counterexample** — a numeric-dtype column `[0, 1]` and a coercible
object column `["1","2"]` both have exactly two distinct non-missing
values, yet neither is classified `binary` (both are `numeric`): the
numeric rules precede the two-distinct-values rule. -/
theorem claim3_counterexample :
    (nunique ⟨DType.floatT, [.q 0, .q 1]⟩ = 2 ∧
      inferColumnType ⟨DType.floatT, [.q 0, .q 1]⟩ ≠ "binary") ∧
    (nunique ⟨DType.obj, [.s "1", .s "2"]⟩ = 2 ∧
      inferColumnType ⟨DType.obj, [.s "1", .s "2"]⟩ ≠ "binary") := by
  decide

/-- **C3, amended** — for a column not already typed datetime, boolean or
numeric whose coercion fraction does not exceed 0.8, exactly two distinct
non-missing values always yield `binary`, regardless of the cardinality
ratio (the binary rule precedes the id rule). -/
theorem claim3_amended (c : Col) (hd : c.dtype = DType.obj)
    (hn : ¬ 5 * convCount c > 4 * c.cells.length) (h2 : nunique c = 2) :
    inferColumnType c = "binary" := by
  obtain ⟨d, cells⟩ := c
  obtain rfl : d = DType.obj := hd
  have hlen : cells.length ≠ 0 := by
    intro h0
    rw [List.length_eq_zero] at h0
    subst h0
    simp [nunique, distinctList] at h2
  simp only [inferColumnType, isDatetimeDtype, isBoolDtype]
  split_ifs <;> simp_all

/-- Witness for C3 (amended): a two-valued text column is classified
binary. -/
theorem claim3_amended_witness :
    inferColumnType ⟨DType.obj, [.s "a", .s "b"]⟩ = "binary" :=
  claim3_amended _ rfl (by decide) (by decide)

/-! ### C4: idempotence of the full cleaner -/

/-- **C4, counterexample** — re-running `clean_dataset` on its own output
can log all three supposedly absent action kinds: capping moves the
quartiles, so `[0,0,0,64]` is capped again; median-filling price and
quantity next to an all-missing total makes reconciliation fire on the
second run; an unparseable date is filled with `"Unknown"`, which parses to
NaT and is filled again. -/
theorem claim4_counterexample :
    "cap_outliers: v (changed 1)" ∈
      secondRunLog ⟨[("v", ⟨DType.floatT, [.q 0, .q 0, .q 0, .q 64]⟩)]⟩ ∧
    "reconcile: filled 2 values across price/qty/total" ∈
      secondRunLog ⟨[("price_per_unit", ⟨DType.floatT, [.na, .q 1]⟩),
        ("quantity", ⟨DType.floatT, [.q 2, .na]⟩),
        ("total_spent", ⟨DType.floatT, [.na, .na]⟩)]⟩ ∧
    "fill_missing: transaction_date (categorical=\x27Unknown\x27) (na 1->0)" ∈
      secondRunLog ⟨[("transaction_date", ⟨DType.obj, [.s "x"]⟩)]⟩ := by
  decide

lemma fillMissingNumeric_median_ok (df : Df) (col : String) :
    ∃ r, fillMissingNumeric df col "median" = Except.ok r := by
  unfold fillMissingNumeric
  cases hc : df.getCol col with
  | none => exact ⟨_, rfl⟩
  | some c0 =>
    dsimp only
    by_cases hb : naCount (toNumericCol c0) = 0
    · rw [if_pos hb]
      exact ⟨_, rfl⟩
    · rw [if_neg hb, if_pos (rfl : ("median" : String) = "median")]
      unfold fillNumFinish
      cases hm : medianQ ((asNums (toNumericCol c0)).filterMap id) with
      | none => exact ⟨_, rfl⟩
      | some v => exact ⟨_, rfl⟩

lemma numFillLoop_ok (names : List String) :
    ∀ df : Df, ∃ r, numFillLoop names df = Except.ok r := by
  induction names with
  | nil => intro df; exact ⟨_, rfl⟩
  | cons n rest ih =>
    intro df
    unfold numFillLoop
    dsimp only
    by_cases hc : (match df.getCol n with
      | some c => isNumericDtype c && ! isBoolDtype c
      | none => false) = true
    · rw [if_pos hc]
      obtain ⟨r, hr⟩ := fillMissingNumeric_median_ok df n
      rw [hr]
      obtain ⟨df', acts⟩ := r
      dsimp only
      obtain ⟨r', hr'⟩ := ih df'
      rw [hr']
      exact ⟨_, rfl⟩
    · rw [if_neg hc]
      exact ih df

/-- **C4, amended** — `clean_dataset` always succeeds and its action log
always starts with the normalization note, but the full cleaner is NOT
idempotent: a second run may log `fill_missing`, `cap_outliers` and
`reconcile` actions again (see the counterexample). -/
theorem claim4_amended (oracle : Col → List (Option ℤ)) (df : Df) :
    ∃ out, cleanDataset oracle df = Except.ok out ∧
      out.2.head? = some NORM_NOTE := by
  unfold cleanDataset
  dsimp only
  obtain ⟨r, hr⟩ := numFillLoop_ok _ _
  rw [hr]
  obtain ⟨df', acts⟩ := r
  exact ⟨_, rfl, rfl⟩

/-- Witness for C4 (amended) on a concrete one-column table. -/
theorem claim4_amended_witness :
    ∃ out, cleanDataset oracleNone (⟨[("v", ⟨DType.floatT, [.q 1]⟩)]⟩ : Df) =
        Except.ok out ∧ out.2.head? = some NORM_NOTE :=
  claim4_amended oracleNone ⟨[("v", ⟨DType.floatT, [.q 1]⟩)]⟩

/-! ### C5: the cleaner's missing-token coverage -/

/-- **C5, counterexample** — under the cleaner's own normalization stage the
marker match is case-sensitive and exact: `"n/a"` (lower case) survives
unchanged, so "`n/a` in any letter case becomes missing" fails. -/
theorem claim5_counterexample :
    cleanerNormalize ⟨[("c", ⟨DType.obj, [.s "n/a", .s "NONE"]⟩)]⟩ =
      ⟨[("c", ⟨DType.obj, [.s "n/a", .s "NONE"]⟩)]⟩ ∧
    cleanNormCell (Cell.s "n/a") = Cell.s "n/a" := by
  decide

/-- **C5, amended** — the cleaner's normalization stage trims each textual
cell and replaces it with the missing sentinel exactly when the trimmed
text equals one of `"", "NA", "N/A", "null", "None", "nan", "?"` in that
exact case: so `"NA"`, `"  "`, `"?"` and `"None"` become missing, while the
differently-cased `"n/a"` and `"NONE"` survive, as does `"N"`. -/
theorem claim5_amended :
    cleanNormCell (Cell.s "NA") = Cell.na ∧
    cleanNormCell (Cell.s "N/A") = Cell.na ∧
    cleanNormCell (Cell.s "  ") = Cell.na ∧
    cleanNormCell (Cell.s "?") = Cell.na ∧
    cleanNormCell (Cell.s "None") = Cell.na ∧
    cleanNormCell (Cell.s "null") = Cell.na ∧
    cleanNormCell (Cell.s "nan") = Cell.na ∧
    cleanNormCell (Cell.s "n/a") = Cell.s "n/a" ∧
    cleanNormCell (Cell.s "NONE") = Cell.s "NONE" ∧
    cleanNormCell (Cell.s "N") = Cell.s "N" := by
  decide

/-! ### C6: what the profiler's normalizer keeps -/

/-- **C6, counterexample** — the profiler's normalizer keeps the
lower-cased text, not the original case: `"Hello"` becomes `"hello"`. -/
theorem claim6_counterexample :
    normCell (Cell.s "Hello") = Cell.s "hello" ∧
    normCell (Cell.s "Hello") ≠ Cell.s "Hello" := by
  decide

/-- **C6, amended** — for every textual cell whose trimmed, lower-cased
value is not a missing marker, the normalizer keeps the trimmed
LOWER-CASED text (lower-casing is applied to the kept value, not only to
the marker comparison). -/
theorem claim6_amended (v : String) (h : stripLower v ∉ MISSING_MARKERS) :
    normCell (Cell.s v) = Cell.s (stripLower v) := by
  simp [normCell, h]

/-- Witness for C6 (amended) at `"Hello"`. -/
theorem claim6_amended_witness :
    normCell (Cell.s "Hello") = Cell.s (stripLower "Hello") :=
  claim6_amended "Hello" (by decide)

/-! ### C7: reconciliation exactness -/

/-- **C7** — on a table holding the claim's rows: (10, 5, —) gains
total 50.00; (—, 4, 20) gains price 5.00; (5, —, 10) gains quantity 2.00;
the zero-divisor rows (—, 0, 20) for pass 2 and (0, —, 10) for pass 3 are
skipped without a fill and without an error, and the one aggregate action
records 3 filled cells. -/
theorem claim7_reconciliation :
    reconcilePriceQtyTotal
      ⟨[("price_per_unit", ⟨DType.floatT, [.q 10, .na, .q 5, .na, .q 0]⟩),
        ("quantity", ⟨DType.floatT, [.q 5, .q 4, .na, .q 0, .na]⟩),
        ("total_spent", ⟨DType.floatT, [.na, .q 20, .q 10, .q 20, .q 10]⟩)]⟩ =
      (⟨[("price_per_unit", ⟨DType.floatT, [.q 10, .q 5, .q 5, .na, .q 0]⟩),
        ("quantity", ⟨DType.floatT, [.q 5, .q 4, .q 2, .q 0, .na]⟩),
        ("total_spent", ⟨DType.floatT, [.q 50, .q 20, .q 10, .q 20, .q 10]⟩)]⟩,
       ["reconcile: filled 3 values across price/qty/total"], 3) := by
  decide

/-! ### C8: the unknown-strategy error -/

/-- **C8, counterexample** — with zero missing cells the function returns
before the strategy dispatch: strategy `"bogus"` on a complete column does
NOT raise, contradicting "raises regardless of how many cells are
missing". -/
theorem claim8_counterexample :
    fillMissingNumeric ⟨[("x", ⟨DType.floatT, [.q 1]⟩)]⟩ "x" "bogus" =
      Except.ok (⟨[("x", ⟨DType.floatT, [.q 1]⟩)]⟩, []) := by
  rfl

/-- **C8, amended** — numeric imputation raises the configuration error for
a strategy outside {median, mean, mode} exactly on columns that are present
and still have at least one missing cell after numeric coercion (with zero
missing cells, or an absent column, it silently returns). -/
theorem claim8_amended (df : Df) (col strategy : String) (c : Col)
    (hc : df.getCol col = some c)
    (hm : naCount (toNumericCol c) ≠ 0)
    (h1 : strategy ≠ "median") (h2 : strategy ≠ "mean") (h3 : strategy ≠ "mode") :
    fillMissingNumeric df col strategy =
      Except.error ("Unknown numeric fill strategy: " ++ strategy) := by
  unfold fillMissingNumeric
  rw [hc]
  dsimp only
  rw [if_neg hm, if_neg h1, if_neg h2, if_neg h3]

/-- Witness for C8 (amended): one missing cell and strategy `"bogus"`
raise. -/
theorem claim8_amended_witness :
    fillMissingNumeric ⟨[("x", ⟨DType.floatT, [.na]⟩)]⟩ "x" "bogus" =
      Except.error ("Unknown numeric fill strategy: " ++ "bogus") :=
  claim8_amended _ _ _ ⟨DType.floatT, [.na]⟩ rfl (by decide) (by decide) (by decide)
    (by decide)

/-! ### C10: boolean parsing of the discount flag -/

/-- **C10** — every cell whose trimmed, lower-cased text is outside both
fixed token sets parses to the missing sentinel; concretely, cleaning a
discount column `["yes", "maybe"]` turns the present-but-unrecognized
`"maybe"` into a missing cell which mode-imputation then fills with
`True`. -/
theorem claim10_bool_parse :
    (∀ v : String, stripLower v ∉ BOOL_TRUE → stripLower v ∉ BOOL_FALSE →
        parseBoolStr v = none) ∧
    cleanDataset oracleNone ⟨[("discount_applied", ⟨DType.obj, [.s "yes", .s "maybe"]⟩)]⟩ =
      Except.ok (⟨[("discount_applied", ⟨DType.booleanT, [.b true, .b true]⟩)]⟩,
        [NORM_NOTE, "try_parse_bool: discount_applied",
          "fill_missing: discount_applied (mode=True) (na 1->0)"]) := by
  constructor
  · intro v h1 h2
    simp [parseBoolStr, h1, h2]
  · rfl

/-- Witness for C10 at `"maybe"`. -/
theorem claim10_bool_parse_witness : parseBoolStr "maybe" = none :=
  claim10_bool_parse.1 "maybe" (by decide) (by decide)

end Autoclean
